import Mathlib

/-!
Verification of the streaming extraction and merge engine of
`process_pr_data.py`: per-agent PR comment extraction, per-PR line-of-code
aggregation, task-type lookup, and the merge into flat interaction records.

The embedding models the JSON values delivered by ijson's `kvitems`
iterator (Python objects: `None`, `bool`, numbers, `str`, `list`, `dict`),
Python truthiness, `dict.get` / `in` / indexing semantics, `str.replace`
(which substitutes every occurrence, not only a suffix), and the
exception-flow of the script: the comments extractor catches all
exceptions and keeps what was already appended, while the commit-details
loop and the surrounding driver let exceptions propagate (modelled with
`Except`).
-/

namespace ProcessPRData

/-- JSON values as materialised by ijson: top-level pairs are streamed,
nested values arrive as ordinary Python objects. Nested objects come from
Python dicts, so their key lists are duplicate-free in practice. -/
inductive Json where
  | null : Json
  | bool : Bool → Json
  | num : Int → Json
  | str : String → Json
  | arr : List Json → Json
  | obj : List (String × Json) → Json
deriving Repr

/-- Python truthiness (`bool(x)`) for the values a JSON document can hold:
`None`, `False`, `0`, `''`, `[]` and `` \x7b\x7d `` are falsy. -/
def Json.truthy : Json → Bool
  | .null => false
  | .bool b => b
  | .num n => n != 0
  | .str s => s != ""
  | .arr xs => !xs.isEmpty
  | .obj kvs => !kvs.isEmpty

/-- Python `repr(x)` for JSON-shaped values, used only through `Json.pyStr`
for f-string interpolation of containers; scalar renderings follow Python
(`None`, `True`, decimal integers). -/
def Json.pyRepr : Json → String
  | .null => "None"
  | .bool b => cond b "True" "False"
  | .num n => toString n
  | .str s => "'" ++ s ++ "'"
  | .arr xs => "[" ++ String.intercalate ", " (xs.attach.map (fun x => Json.pyRepr x.1)) ++ "]"
  | .obj kvs =>
    "\x7b" ++
      String.intercalate ", "
        (kvs.attach.map (fun kv => "'" ++ kv.1.1 ++ "': " ++ Json.pyRepr kv.1.2)) ++
      "\x7d"
termination_by j => sizeOf j
decreasing_by
  · have h := List.sizeOf_lt_of_mem x.2
    simp only [Json.arr.sizeOf_spec]
    omega
  · have h := List.sizeOf_lt_of_mem kv.2
    have h2 : sizeOf (kv.1).2 < sizeOf kv.1 := by
      obtain ⟨⟨a, b⟩, hm⟩ := kv
      simp
    simp only [Json.obj.sizeOf_spec]
    omega

/-- Python `str(x)` as used by the f-string at line 31: strings render
verbatim, everything else via its repr-style rendering. -/
def Json.pyStr : Json → String
  | .str s => s
  | j => j.pyRepr

/-- Python dict lookup on an association list: with duplicate keys a Python
dict keeps the last value, hence the reversed search. -/
def pyLookup (kvs : List (String × Json)) (k : String) : Option Json :=
  (kvs.reverse.find? (fun kv => kv.1 == k)).map (·.2)

/-- Python `x.get(k, d)`: defined only on dicts, `AttributeError` otherwise. -/
def dictGet (j : Json) (k : String) (d : Json) : Except String Json :=
  match j with
  | .obj kvs => .ok ((pyLookup kvs k).getD d)
  | _ => .error "AttributeError: get"

/-- Python `x[k]` for a string key: `KeyError` when absent, `TypeError` when
`x` is not a dict. -/
def dictIndex (j : Json) (k : String) : Except String Json :=
  match j with
  | .obj kvs =>
    match pyLookup kvs k with
    | some v => .ok v
    | none => .error "KeyError"
  | _ => .error "TypeError: not subscriptable"

/-- Python iteration `for x in v`: lists yield elements, strings yield
one-character strings, dicts yield their keys; other values raise
`TypeError`. -/
def pyIter : Json → Except String (List Json)
  | .arr xs => .ok xs
  | .str s => .ok (s.toList.map (fun c => .str (String.singleton c)))
  | .obj kvs => .ok (kvs.map (fun kv => .str kv.1))
  | _ => .error "TypeError: not iterable"

/-- Python `s.replace(pat, rep)` on character lists: every non-overlapping
occurrence of `pat` is replaced, scanning left to right. The first argument
is fuel (one unit per consumed character) so the definition is structural
and kernel-reducible; callers pass the input length. An empty `pat` is
never used by the script and is treated as "no occurrence". -/
def pyReplaceCore (pat rep : List Char) : Nat → List Char → List Char
  | _, [] => []
  | 0, l => l
  | fuel + 1, c :: rest =>
    if pat.length ≠ 0 ∧ List.take pat.length (c :: rest) = pat then
      rep ++ pyReplaceCore pat rep fuel (List.drop (pat.length - 1) rest)
    else
      c :: pyReplaceCore pat rep fuel rest

/-- Python `s.replace(pat, rep)`. -/
def pyReplace (s pat rep : String) : String :=
  ⟨pyReplaceCore pat.toList rep.toList s.toList.length s.toList⟩

/-- Line 22 / line 89 of the source: `pr_filename.replace('.json', '')`.
Note Python `str.replace` removes every occurrence of `".json"`, not only
a trailing suffix. -/
def prIdOfFilename (fn : String) : String :=
  pyReplace fn ".json" ""

/-- Whether a filename ends in the `".json"` suffix (the condition the
spec phrases the PR_ID derivation with). -/
def endsInJson (fn : String) : Bool :=
  List.take 5 fn.toList.reverse == ".json".toList.reverse

/-- One extracted entry of `_extract_comments_with_details` (the dict
appended at lines 37-43). `body`, `login` and `type` are kept as the
Python values they are, since the script never coerces them. -/
structure Fragment where
  PR_ID : String
  Comment_Body : Json
  User_Login : Json
  User_Type : Json
  Comment_Category : String
deriving Repr

/-- Lines 24-31: the comment body of one entry. `body = entry.get('body', '')`,
then for category `Review_Summary`, when `body` is falsy and
`entry.get('state')` is truthy, `body = f"Review State: ..."` built from
`entry['state']`. -/
def computeBody (comment_category : String) (entry : Json) : Except String Json := do
  let body0 ← dictGet entry "body" (.str "")
  if comment_category = "Review_Summary" then do
    let st ← dictGet entry "state" .null
    if !body0.truthy && st.truthy then do
      let stIdx ← dictIndex entry "state"
      pure (Json.str ("Review State: " ++ stIdx.pyStr))
    else
      pure body0
  else
    pure body0

/-- Lines 24-43: processing of a single entry of an entries list. Any
Python exception (e.g. `entry` not a dict, or a truthy non-dict `user`)
surfaces as `Except.error` and is caught by the caller's `except` block. -/
def processEntry (comment_category : String) (pr_id : String) (entry : Json) :
    Except String Fragment := do
  let body ← computeBody comment_category entry
  let userRaw ← dictGet entry "user" .null
  let user := if userRaw.truthy then userRaw else Json.obj []
  let user_login ← dictGet user "login" (.str "N/A")
  let user_type ← dictGet user "type" (.str "N/A")
  pure ⟨pr_id, body, user_login, user_type, comment_category⟩

/-- Lines 23-43: the inner `for entry in entries_list` loop. Fragments are
appended one at a time; an exception keeps what was already appended and
reports the error to the enclosing loop. -/
def runEntries (cat pr_id : String) (entries : List Json) (acc : List Fragment) :
    List Fragment × Option String :=
  match entries with
  | [] => (acc, none)
  | e :: rest =>
    match processEntry cat pr_id e with
    | .ok f => runEntries cat pr_id rest (acc ++ [f])
    | .error err => (acc, some err)

/-- Lines 21-43: the `for pr_filename, entries_list in data_iter` loop over
the pairs the stream yields before any parse fault. -/
def runPairs (cat : String) (ps : List (String × Json)) (acc : List Fragment) :
    List Fragment × Option String :=
  match ps with
  | [] => (acc, none)
  | (fn, v) :: rest =>
    match pyIter v with
    | .error err => (acc, some err)
    | .ok entries =>
      match runEntries cat (prIdOfFilename fn) entries acc with
      | (acc2, some err) => (acc2, some err)
      | (acc2, none) => runPairs cat rest acc2

/-- The observable behaviour of `ijson.kvitems(f, '')` on one input file:
the key/value pairs fully parsed before any fault, in document order, and
the parse fault (e.g. `IncompleteJSONError` for a truncated document) the
iterator raises after yielding those pairs, if any. -/
structure KVStream where
  pairs : List (String × Json)
  fault : Option String
deriving Repr

/-- Lines 19-47: run the extraction loop over one stream; the second
component is the exception reaching the `except` clauses, if any. A stream
fault fires only once every fully-parsed pair has been consumed. -/
def runStream (cat : String) (s : KVStream) : List Fragment × Option String :=
  match runPairs cat s.pairs [] with
  | (acc, some err) => (acc, some err)
  | (acc, none) => (acc, s.fault)

/-- Lines 10-49, `_extract_comments_with_details`: a missing file yields no
entries (line 16 guard); otherwise the loop runs and both `except` clauses
(lines 44-47) swallow the exception, returning whatever was appended. -/
def extract_comments_with_details (file : Option KVStream) (comment_category : String) :
    List Fragment :=
  match file with
  | none => []
  | some s => (runStream comment_category s).1

/-- The fragments of a single `(filename, entries)` pair when every entry
processes without an exception; `.error` when some entry (or the iteration
itself) raises. Used to state clean-run properties of the loop. -/
def pairFrags (cat : String) (p : String × Json) : Except String (List Fragment) := do
  let entries ← pyIter p.2
  entries.mapM (processEntry cat (prIdOfFilename p.1))

/-- One value of `pr_loc_data` (lines 96-100). -/
structure LocInfo where
  Total_LOC_Change : Int
  Additions : Int
  Deletions : Int
deriving Repr, DecidableEq

/-- Python numeric coercion for `+=`: JSON numbers add as themselves and
booleans count as 0/1; anything else raises `TypeError`. -/
def asNum : Json → Except String Int
  | .num n => .ok n
  | .bool b => .ok (cond b 1 0)
  | _ => .error "TypeError: unsupported operand"

/-- Line 93 guard: `'stats' in commit and commit['stats'] is not None`.
Returns the stats value when the guard passes. For a string commit, `in`
is a substring test and the subsequent indexing raises `TypeError`; for a
list commit, `in` is membership and indexing by a string raises
`TypeError`; for the remaining non-container shapes `in` itself raises. -/
def statsOf (commit : Json) : Except String (Option Json) :=
  match commit with
  | .obj kvs =>
    match pyLookup kvs "stats" with
    | some .null => .ok none
    | some s => .ok (some s)
    | none => .ok none
  | .str s =>
    if (s.splitOn "stats").length > 1 then .error "TypeError: string indices must be integers"
    else .ok none
  | .arr xs =>
    if xs.any (fun j => match j with | .str t => t == "stats" | _ => false) then
      .error "TypeError: list indices must be integers"
    else .ok none
  | _ => .error "TypeError: argument not iterable"

/-- Lines 90-95: the running additions/deletions totals over one commits
list. Exceptions (non-dict commit, non-dict stats, non-numeric field)
propagate: this loop has no `try`. -/
def locOfCommits : List Json → Int → Int → Except String (Int × Int)
  | [], a, d => .ok (a, d)
  | c :: rest, a, d => do
    let st ← statsOf c
    match st with
    | some s => do
      let addJ ← dictGet s "additions" (.num 0)
      let add ← asNum addJ
      let delJ ← dictGet s "deletions" (.num 0)
      let del ← asNum delJ
      locOfCommits rest (a + add) (d + del)
    | none => locOfCommits rest a d

/-- Lookup in `pr_loc_data`, a Python dict modelled as an append-only
association list where the last binding for a key wins (dict assignment
overwrites). -/
def locLookup (m : List (String × LocInfo)) (k : String) : Option LocInfo :=
  ((m.reverse.find? (fun q => q.1 == k)).map (·.2))

/-- Lines 87-100: the `for pr_filename, commits in commit_details_iter`
loop body over the fully parsed pairs; `pr_loc_data[pr_id] = ...` is the
trailing append. -/
def runLocPairs : List (String × Json) → List (String × LocInfo) →
    Except String (List (String × LocInfo))
  | [], m => .ok m
  | (fn, commits) :: rest, m => do
    let cs ← pyIter commits
    let (a, d) ← locOfCommits cs 0 0
    runLocPairs rest (m ++ [(prIdOfFilename fn, ⟨a + d, a, d⟩)])

/-- Lines 78-103: LOC aggregation over `pr_commit_details.json`. A missing
file leaves `pr_loc_data` empty (line 80 guard). There is no `try` around
this loop, so both a per-commit exception and the stream's own parse fault
(raised by the iterator after the last complete pair) propagate out. -/
def aggregateLoc (file : Option KVStream) : Except String (List (String × LocInfo)) :=
  match file with
  | none => .ok []
  | some s => do
    let m ← runLocPairs s.pairs []
    match s.fault with
    | some err => .error err
    | none => .ok m

/-- The task-type CSV as `process_agent_data` sees it: `none` when the file
does not exist, `some (.error e)` when `pd.read_csv`/column handling raises,
`some (.ok rows)` for the parsed `(id, type)` rows in file order. -/
def TaskFile := Option (Except String (List (String × String)))

/-- Lines 62-75: build `pr_task_map`. Missing file or any load exception
gives the empty dict; duplicate ids keep the last row (`to_dict`). -/
def buildTaskMap (file : TaskFile) : List (String × String) :=
  match file with
  | none => []
  | some (.error _) => []
  | some (.ok rows) => rows

/-- Line 133: `pr_task_map.get(pr_id, 'N/A')` over the last-wins dict. -/
def taskLookup (m : List (String × String)) (k : String) : String :=
  ((m.reverse.find? (fun q => q.1 == k)).map (·.2)).getD "N/A"

/-- One row of the final table (the dict appended at lines 130-141). -/
structure InteractionRecord where
  Agent : String
  PR_ID : String
  Task_Type : String
  Total_LOC_Change : Int
  Additions : Int
  Deletions : Int
  Comment_Category : String
  Comment_Body : Json
  User_Login : Json
  User_Type : Json
deriving Repr

/-- Lines 126-141: merge one extracted fragment with the LOC and task-type
side tables. -/
def mergeFragment (agent_name : String) (pr_loc_data : List (String × LocInfo))
    (pr_task_map : List (String × String)) (f : Fragment) : InteractionRecord :=
  let loc_info := (locLookup pr_loc_data f.PR_ID).getD ⟨0, 0, 0⟩
  { Agent := agent_name
    PR_ID := f.PR_ID
    Task_Type := taskLookup pr_task_map f.PR_ID
    Total_LOC_Change := loc_info.Total_LOC_Change
    Additions := loc_info.Additions
    Deletions := loc_info.Deletions
    Comment_Category := f.Comment_Category
    Comment_Body := f.Comment_Body
    User_Login := f.User_Login
    User_Type := f.User_Type }

/-- The five per-agent input files. `none` models a file that does not
exist on disk. -/
structure AgentInput where
  taskFile : TaskFile
  commitDetails : Option KVStream
  prComments : Option KVStream
  prReviewComments : Option KVStream
  prReviews : Option KVStream

/-- Lines 51-143, `process_agent_data`: task map, LOC aggregation, the
three category extractions in fixed order, then the merge loop. The only
uncaught exception paths are inside the LOC aggregation. -/
def process_agent_data (agent_name : String) (inp : AgentInput) :
    Except String (List InteractionRecord) := do
  let pr_task_map := buildTaskMap inp.taskFile
  let pr_loc_data ← aggregateLoc inp.commitDetails
  let all_comments_and_reviews :=
    extract_comments_with_details inp.prComments "PR_Comment"
    ++ extract_comments_with_details inp.prReviewComments "Review_Comment"
    ++ extract_comments_with_details inp.prReviews "Review_Summary"
  .ok (all_comments_and_reviews.map (mergeFragment agent_name pr_loc_data pr_task_map))

/-- Outcome of `main`: the rows written to the output CSV (`none` when no
file is written) and the status messages printed on the terminal paths. -/
structure MainResult where
  written : Option (List InteractionRecord)
  messages : List String
deriving Repr

/-- Message printed at line 151 when the base directory is missing. -/
def msgBaseMissing : String :=
  "Error: Base directory 'AIDev/aidev-pop' not found. Please ensure the path is correct."

/-- Message printed at line 157 when no agent subdirectories exist. -/
def msgNoAgents : String :=
  "No agent directories found in 'AIDev/aidev-pop'. Exiting."

/-- Message printed at line 174 when zero records were produced. -/
def msgNoData : String :=
  "No data processed. Output CSV not created."

/-- Message printed at line 171 on the success path. -/
def msgSaved : String :=
  "Output saved to 'agent_pr_allcomments_with_loc.csv'."

/-- Lines 145-175, `main`: the base directory is `none` when absent,
otherwise the enumerated agent subdirectories with their input files. The
per-agent loop (lines 161-165) has no `try`, so an exception from
`process_agent_data` aborts the run. -/
def main (base_dir : Option (List (String × AgentInput))) : Except String MainResult :=
  match base_dir with
  | none => .ok ⟨none, [msgBaseMissing]⟩
  | some agent_dirs =>
    if agent_dirs.isEmpty then .ok ⟨none, [msgNoAgents]⟩
    else do
      let all_data ← agent_dirs.foldlM
        (fun acc ad => do
          let d ← process_agent_data ad.1 ad.2
          pure (acc ++ d))
        ([] : List InteractionRecord)
      if all_data.isEmpty then .ok ⟨none, [msgNoData]⟩
      else .ok ⟨some all_data, [msgSaved]⟩

/-! ### General lemmas about the extraction loop -/

theorem runEntries_acc (cat pr_id : String) (es : List Json) (acc : List Fragment) :
    runEntries cat pr_id es acc =
      (acc ++ (runEntries cat pr_id es []).1, (runEntries cat pr_id es []).2) := by
  induction es generalizing acc with
  | nil => simp [runEntries]
  | cons e rest ih =>
    simp only [runEntries]
    cases processEntry cat pr_id e with
    | ok f => dsimp only; rw [ih (acc ++ [f]), ih ([] ++ [f])]; simp
    | error err => simp

theorem runPairs_acc (cat : String) (ps : List (String × Json)) (acc : List Fragment) :
    runPairs cat ps acc = (acc ++ (runPairs cat ps []).1, (runPairs cat ps []).2) := by
  induction ps generalizing acc with
  | nil => simp [runPairs]
  | cons p rest ih =>
    obtain ⟨fn, v⟩ := p
    simp only [runPairs]
    cases pyIter v with
    | error err => simp
    | ok entries =>
      dsimp only
      rw [runEntries_acc cat (prIdOfFilename fn) entries acc,
          runEntries_acc cat (prIdOfFilename fn) entries []]
      cases hsnd : (runEntries cat (prIdOfFilename fn) entries []).2 with
      | some err => simp
      | none =>
        simp only [List.nil_append]
        rw [ih (acc ++ (runEntries cat (prIdOfFilename fn) entries []).1),
            ih ((runEntries cat (prIdOfFilename fn) entries []).1)]
        simp

theorem runStream_fst (cat : String) (ps : List (String × Json)) (fault : Option String) :
    (runStream cat ⟨ps, fault⟩).1 = (runPairs cat ps []).1 := by
  simp only [runStream]
  cases h : runPairs cat ps [] with
  | mk acc ferr => cases ferr <;> simp

theorem extract_eq_runPairs (cat : String) (ps : List (String × Json)) (fault : Option String) :
    extract_comments_with_details (some ⟨ps, fault⟩) cat = (runPairs cat ps []).1 := by
  simp [extract_comments_with_details, runStream_fst]

theorem processEntry_ok_fields (cat pr_id : String) (e : Json) (f : Fragment)
    (h : processEntry cat pr_id e = .ok f) :
    f.PR_ID = pr_id ∧ f.Comment_Category = cat ∧ computeBody cat e = .ok f.Comment_Body := by
  simp only [processEntry, Bind.bind, Except.bind, pure, Except.pure] at h
  cases hb : computeBody cat e with
  | error err => rw [hb] at h; exact absurd h (by simp)
  | ok b =>
    rw [hb] at h
    cases hu : dictGet e "user" Json.null with
    | error err => rw [hu] at h; exact absurd h (by simp)
    | ok u =>
      rw [hu] at h
      dsimp only at h
      cases hl : dictGet (if u.truthy then u else Json.obj []) "login" (Json.str "N/A") with
      | error err => rw [hl] at h; exact absurd h (by simp)
      | ok lg =>
        rw [hl] at h
        dsimp only at h
        cases ht : dictGet (if u.truthy then u else Json.obj []) "type" (Json.str "N/A") with
        | error err => rw [ht] at h; exact absurd h (by simp)
        | ok ty =>
          rw [ht] at h
          dsimp only at h
          cases h
          exact ⟨rfl, rfl, rfl⟩

/-- Every fragment accumulated by the inner entries loop carries the
`pr_id` and category of its originating pair. -/
theorem runEntries_mem (cat pr_id : String) (es : List Json) (f : Fragment)
    (hf : f ∈ (runEntries cat pr_id es []).1) :
    f.PR_ID = pr_id ∧ f.Comment_Category = cat := by
  induction es with
  | nil => simp [runEntries] at hf
  | cons e rest ih =>
    simp only [runEntries] at hf
    cases hpe : processEntry cat pr_id e with
    | error err => rw [hpe] at hf; simp at hf
    | ok g =>
      rw [hpe] at hf
      dsimp only at hf
      rw [runEntries_acc cat pr_id rest ([] ++ [g])] at hf
      simp only [List.nil_append, List.singleton_append, List.mem_cons] at hf
      rcases hf with rfl | hf
      · have := processEntry_ok_fields cat pr_id e f hpe
        exact ⟨this.1, this.2.1⟩
      · exact ih hf

/-- Every fragment the extraction loop accumulates originates from one of
the stream's pairs, with `PR_ID` derived from that pair's key. -/
theorem runPairs_mem (cat : String) (ps : List (String × Json)) (f : Fragment)
    (hf : f ∈ (runPairs cat ps []).1) :
    (∃ p ∈ ps, f.PR_ID = prIdOfFilename p.1) ∧ f.Comment_Category = cat := by
  induction ps with
  | nil => simp [runPairs] at hf
  | cons p rest ih =>
    obtain ⟨fn, v⟩ := p
    simp only [runPairs] at hf
    cases hit : pyIter v with
    | error err => rw [hit] at hf; simp at hf
    | ok entries =>
      rw [hit] at hf
      dsimp only at hf
      rcases hre : runEntries cat (prIdOfFilename fn) entries [] with ⟨acc2, ferr⟩
      rw [hre] at hf
      cases ferr with
      | some err =>
        dsimp only at hf
        have hmem : f ∈ (runEntries cat (prIdOfFilename fn) entries []).1 := by
          rw [hre]; exact hf
        have := runEntries_mem cat (prIdOfFilename fn) entries f hmem
        exact ⟨⟨(fn, v), List.mem_cons_self _ _, this.1⟩, this.2⟩
      | none =>
        dsimp only at hf
        rw [runPairs_acc cat rest acc2, List.mem_append] at hf
        rcases hf with hf | hf
        · have hmem : f ∈ (runEntries cat (prIdOfFilename fn) entries []).1 := by
            rw [hre]; exact hf
          have := runEntries_mem cat (prIdOfFilename fn) entries f hmem
          exact ⟨⟨(fn, v), List.mem_cons_self _ _, this.1⟩, this.2⟩
        · rcases ih hf with ⟨⟨q, hq, hid⟩, hcat⟩
          exact ⟨⟨q, List.mem_cons_of_mem _ hq, hid⟩, hcat⟩

/-! ### Claim C1 -/

/-- C1 (counterexample): the claim lists `pr_commit_details.json` among the
files whose malformed/truncated content is non-fatal, but the commit-details
loop has no `try`: a truncated commit-details document makes
`process_agent_data` raise, and the exception aborts the whole batch in
`main`'s per-agent loop. -/
theorem claim1_counterexample :
    process_agent_data "agent_a"
      ⟨none, some ⟨[("1.json", .arr [])], some "IncompleteJSONError"⟩, none, none, none⟩
      = .error "IncompleteJSONError"
    ∧ main (some [("agent_a",
        ⟨none, some ⟨[("1.json", .arr [])], some "IncompleteJSONError"⟩, none, none, none⟩)])
      = .error "IncompleteJSONError" :=
  ⟨rfl, rfl⟩

/-- C1 (amended): for the three comments files a malformed or truncated
document is non-fatal — agent processing yields exactly what it would on
the fully-parsed prefix, so every pair parsed before the fault is used and
no exception escapes; for `pr_commit_details.json`, however, the parse
fault propagates out of the agent's processing (second conjunct). -/
theorem claim1_amended_thm (agent_name : String) (tf : TaskFile) (cd : Option KVStream)
    (ps1 ps2 ps3 : List (String × Json)) (e1 e2 e3 : Option String) :
    (process_agent_data agent_name ⟨tf, cd, some ⟨ps1, e1⟩, some ⟨ps2, e2⟩, some ⟨ps3, e3⟩⟩
      = process_agent_data agent_name ⟨tf, cd, some ⟨ps1, none⟩, some ⟨ps2, none⟩, some ⟨ps3, none⟩⟩)
    ∧ (∀ (ps : List (String × Json)) (err : String) (m : List (String × LocInfo)),
        runLocPairs ps [] = .ok m →
        process_agent_data agent_name ⟨tf, some ⟨ps, some err⟩, some ⟨ps1, e1⟩,
            some ⟨ps2, e2⟩, some ⟨ps3, e3⟩⟩ = .error err) := by
  constructor
  · simp [process_agent_data, extract_eq_runPairs]
  · intro ps err m h
    simp [process_agent_data, aggregateLoc, h, Bind.bind, Except.bind]

/-- C1 (witness): the amended theorem applied at a concrete truncated
comments file (prefix preserved) and a concrete truncated commit-details
file (error propagates). -/
theorem claim1_witness :
    (process_agent_data "a" ⟨none, none, some ⟨[("1.json", .arr [.obj []])], some "cut"⟩,
        some ⟨[], some "cut"⟩, some ⟨[], some "cut"⟩⟩
      = process_agent_data "a" ⟨none, none, some ⟨[("1.json", .arr [.obj []])], none⟩,
        some ⟨[], none⟩, some ⟨[], none⟩⟩)
    ∧ process_agent_data "a" ⟨none, some ⟨[], some "boom"⟩,
        some ⟨[("1.json", .arr [.obj []])], some "cut"⟩, some ⟨[], some "cut"⟩,
        some ⟨[], some "cut"⟩⟩ = .error "boom" :=
  ⟨(claim1_amended_thm "a" none none [("1.json", .arr [.obj []])] [] []
      (some "cut") (some "cut") (some "cut")).1,
   (claim1_amended_thm "a" none none [("1.json", .arr [.obj []])] [] []
      (some "cut") (some "cut") (some "cut")).2 [] "boom" [] rfl⟩

/-! ### Claim C2 -/

/-- C2 (counterexample): the key `"pr_5.json_old"` does not end in
`".json"`, yet the extracted PR_ID is `"pr_5_old"`, not the filename
unchanged — Python `str.replace` removes the interior occurrence too. -/
theorem claim2_counterexample :
    (extract_comments_with_details
        (some ⟨[("pr_5.json_old", .arr [.obj []])], none⟩) "PR_Comment").map (·.PR_ID)
      = ["pr_5_old"]
    ∧ endsInJson "pr_5.json_old" = false
    ∧ "pr_5_old" ≠ "pr_5.json_old" :=
  ⟨rfl, by decide, by decide⟩

/-- C2 (amended): every fragment's PR_ID is its originating top-level key
with every occurrence of the substring `".json"` removed (Python
`str.replace` semantics) — in particular a filename in which `".json"`
does not occur at all is left unchanged, with no error. -/
theorem claim2_amended_thm (cat : String) (s : KVStream) (f : Fragment)
    (hf : f ∈ extract_comments_with_details (some s) cat) :
    ∃ p ∈ s.pairs, f.PR_ID = pyReplace p.1 ".json" "" := by
  obtain ⟨ps, fault⟩ := s
  rw [extract_eq_runPairs] at hf
  exact (runPairs_mem cat ps f hf).1

/-- C2 (witness): the amended theorem applied to a concrete one-pair
stream. -/
theorem claim2_witness :
    ∃ p ∈ (KVStream.mk [("pr_5.json_old", Json.arr [Json.obj []])] none).pairs,
      (Fragment.mk "pr_5_old" (.str "") (.str "N/A") (.str "N/A") "PR_Comment").PR_ID
        = pyReplace p.1 ".json" "" :=
  claim2_amended_thm "PR_Comment" ⟨[("pr_5.json_old", Json.arr [Json.obj []])], none⟩
    ⟨"pr_5_old", .str "", .str "N/A", .str "N/A", "PR_Comment"⟩ (List.Mem.head _)

/-! ### Lemmas about the LOC aggregation -/

theorem runLocPairs_inv (ps : List (String × Json)) (acc m : List (String × LocInfo))
    (h : runLocPairs ps acc = .ok m)
    (hacc : ∀ q ∈ acc, q.2.Total_LOC_Change = q.2.Additions + q.2.Deletions) :
    ∀ q ∈ m, q.2.Total_LOC_Change = q.2.Additions + q.2.Deletions := by
  induction ps generalizing acc with
  | nil =>
    simp only [runLocPairs] at h
    cases h
    exact hacc
  | cons p rest ih =>
    obtain ⟨fn, commits⟩ := p
    simp only [runLocPairs, Bind.bind, Except.bind] at h
    cases hit : pyIter commits with
    | error err => rw [hit] at h; simp at h
    | ok cs =>
      rw [hit] at h
      dsimp only at h
      cases hlc : locOfCommits cs 0 0 with
      | error err => rw [hlc] at h; simp at h
      | ok ad =>
        rw [hlc] at h
        dsimp only at h
        obtain ⟨a, d⟩ := ad
        refine ih _ h ?_
        intro q hq
        rcases List.mem_append.mp hq with h1 | h2
        · exact hacc q h1
        · simp only [List.mem_singleton] at h2
          subst h2
          rfl

theorem aggregateLoc_inv (file : Option KVStream) (m : List (String × LocInfo))
    (h : aggregateLoc file = .ok m) :
    ∀ q ∈ m, q.2.Total_LOC_Change = q.2.Additions + q.2.Deletions := by
  cases file with
  | none =>
    simp only [aggregateLoc] at h
    cases h
    simp
  | some s =>
    simp only [aggregateLoc, Bind.bind, Except.bind] at h
    cases hrl : runLocPairs s.pairs [] with
    | error err => rw [hrl] at h; simp at h
    | ok m0 =>
      rw [hrl] at h
      dsimp only at h
      cases hfa : s.fault with
      | some err => rw [hfa] at h; simp at h
      | none =>
        rw [hfa] at h
        cases h
        exact runLocPairs_inv s.pairs [] _ hrl (by simp)

theorem locLookup_mem (m : List (String × LocInfo)) (k : String) (v : LocInfo)
    (h : locLookup m k = some v) : ∃ q ∈ m, q.2 = v := by
  simp only [locLookup] at h
  cases hf : m.reverse.find? (fun q => q.1 == k) with
  | none => rw [hf] at h; simp at h
  | some q =>
    rw [hf] at h
    simp only [Option.map_some'] at h
    exact ⟨q, List.mem_reverse.mp (List.mem_of_find?_eq_some hf), by injection h⟩

/-! ### Claim C3 -/

/-- C3: every record emitted by the merge step satisfies
`Total_LOC_Change = Additions + Deletions`, whether the PR_ID was found in
the LOC mapping (the stored triple is built as `⟨a + d, a, d⟩`) or missing
(default zero triple). -/
theorem claim3_thm (agent_name : String) (inp : AgentInput) (out : List InteractionRecord)
    (h : process_agent_data agent_name inp = .ok out) :
    ∀ r ∈ out, r.Total_LOC_Change = r.Additions + r.Deletions := by
  simp only [process_agent_data, Bind.bind, Except.bind] at h
  cases hagg : aggregateLoc inp.commitDetails with
  | error err => rw [hagg] at h; simp at h
  | ok locMap =>
    rw [hagg] at h
    dsimp only at h
    cases h
    intro r hr
    rw [List.mem_map] at hr
    obtain ⟨f, hfmem, rfl⟩ := hr
    simp only [mergeFragment]
    cases hll : locLookup locMap f.PR_ID with
    | none => simp [hll]
    | some v =>
      obtain ⟨q, hqmem, rfl⟩ := locLookup_mem locMap f.PR_ID v hll
      simp only [hll, Option.getD_some]
      exact aggregateLoc_inv inp.commitDetails locMap hagg q hqmem

/-- C3 (witness): the theorem applied to the spec's round-trip example
(one comment, one commit with 10 additions and 2 deletions). -/
theorem claim3_witness :
    (InteractionRecord.mk "alpha" "42" "bugfix" 12 10 2 "PR_Comment"
      (.str "hi") (.str "bob") (.str "User")).Total_LOC_Change
      = (InteractionRecord.mk "alpha" "42" "bugfix" 12 10 2 "PR_Comment"
          (.str "hi") (.str "bob") (.str "User")).Additions
        + (InteractionRecord.mk "alpha" "42" "bugfix" 12 10 2 "PR_Comment"
          (.str "hi") (.str "bob") (.str "User")).Deletions :=
  claim3_thm "alpha"
    ⟨some (.ok [("42", "bugfix")]),
     some ⟨[("42.json", .arr [.obj [("stats",
        .obj [("additions", .num 10), ("deletions", .num 2)])]])], none⟩,
     some ⟨[("42.json", .arr [.obj [("body", .str "hi"),
        ("user", .obj [("login", .str "bob"), ("type", .str "User")])]])], none⟩,
     none, none⟩
    [⟨"alpha", "42", "bugfix", 12, 10, 2, "PR_Comment", .str "hi", .str "bob", .str "User"⟩]
    rfl
    ⟨"alpha", "42", "bugfix", 12, 10, 2, "PR_Comment", .str "hi", .str "bob", .str "User"⟩
    (List.Mem.head _)

/-! ### Claim C4: the LOC sums against the spec's description -/

/-- A numeric stats sub-field with default 0 (spec side: "add its
`additions` (default 0)"); Python arithmetic counts booleans as 0/1. -/
def specStatsField (skvs : List (String × Json)) (field : String) : Int :=
  match pyLookup skvs field with
  | some (.num n) => n
  | some (.bool b) => cond b 1 0
  | _ => 0

/-- The contribution of one commit to a LOC sum, transcribed from the
spec sentence: a commit with a non-null `stats` field contributes that
field's value (default 0); a commit without `stats` (or with `stats`
null) contributes nothing. -/
def specCommitField (field : String) (c : Json) : Int :=
  match c with
  | .obj kvs =>
    match pyLookup kvs "stats" with
    | some (.obj skvs) => specStatsField skvs field
    | _ => 0
  | _ => 0

/-- Spec-side Additions: the sum of per-commit additions over the ordered
commit sequence. -/
def specAdditions (cs : List Json) : Int :=
  (cs.map (specCommitField "additions")).sum

/-- Spec-side Deletions. -/
def specDeletions (cs : List Json) : Int :=
  (cs.map (specCommitField "deletions")).sum

theorem statsOf_ok_some (c s : Json) (h : statsOf c = .ok (some s)) :
    ∃ kvs, c = .obj kvs ∧ pyLookup kvs "stats" = some s ∧ s ≠ .null := by
  cases c with
  | obj kvs =>
    simp only [statsOf] at h
    cases hp : pyLookup kvs "stats" with
    | none => rw [hp] at h; simp at h
    | some v =>
      rw [hp] at h
      cases v with
      | null => simp at h
      | bool b =>
        have hv : Json.bool b = s := by simpa using h
        subst hv
        exact ⟨kvs, rfl, hp, by simp⟩
      | num n =>
        have hv : Json.num n = s := by simpa using h
        subst hv
        exact ⟨kvs, rfl, hp, by simp⟩
      | str t =>
        have hv : Json.str t = s := by simpa using h
        subst hv
        exact ⟨kvs, rfl, hp, by simp⟩
      | arr xs =>
        have hv : Json.arr xs = s := by simpa using h
        subst hv
        exact ⟨kvs, rfl, hp, by simp⟩
      | obj okvs =>
        have hv : Json.obj okvs = s := by simpa using h
        subst hv
        exact ⟨kvs, rfl, hp, by simp⟩
  | str s' => simp only [statsOf] at h; split at h <;> simp at h
  | arr xs => simp only [statsOf] at h; split at h <;> simp at h
  | null => simp [statsOf] at h
  | bool b => simp [statsOf] at h
  | num n => simp [statsOf] at h

theorem statsOf_ok_none (c : Json) (field : String) (h : statsOf c = .ok none) :
    specCommitField field c = 0 := by
  cases c with
  | obj kvs =>
    simp only [statsOf] at h
    simp only [specCommitField]
    cases hp : pyLookup kvs "stats" with
    | none => simp
    | some v =>
      rw [hp] at h
      cases v with
      | null => simp
      | bool b => simp at h
      | num n => simp at h
      | str t => simp at h
      | arr xs => simp at h
      | obj okvs => simp at h
  | str s' => rfl
  | arr xs => rfl
  | null => rfl
  | bool b => rfl
  | num n => rfl

theorem statField_of_ok (skvs : List (String × Json)) (field : String) (vJ : Json) (v : Int)
    (hget : dictGet (.obj skvs) field (.num 0) = .ok vJ) (hnum : asNum vJ = .ok v) :
    specStatsField skvs field = v := by
  simp only [dictGet] at hget
  injection hget with hget
  simp only [specStatsField]
  cases hp : pyLookup skvs field with
  | none =>
    rw [hp] at hget
    simp only [Option.getD_none] at hget
    subst hget
    simp only [asNum, Except.ok.injEq] at hnum
    subst hnum
    rfl
  | some w =>
    rw [hp] at hget
    simp only [Option.getD_some] at hget
    subst hget
    cases w <;> simp_all [asNum]

theorem locOfCommits_spec (cs : List Json) (a0 d0 a d : Int)
    (h : locOfCommits cs a0 d0 = .ok (a, d)) :
    a = a0 + specAdditions cs ∧ d = d0 + specDeletions cs := by
  induction cs generalizing a0 d0 with
  | nil =>
    simp only [locOfCommits] at h
    injection h with h
    injection h with h1 h2
    simp [specAdditions, specDeletions, ← h1, ← h2]
  | cons c rest ih =>
    simp only [locOfCommits, Bind.bind, Except.bind] at h
    cases hst : statsOf c with
    | error err => rw [hst] at h; simp at h
    | ok sopt =>
      rw [hst] at h
      dsimp only at h
      cases sopt with
      | none =>
        dsimp only at h
        have hrec := ih _ _ h
        have hadd := statsOf_ok_none c "additions" hst
        have hdel := statsOf_ok_none c "deletions" hst
        simp [specAdditions, specDeletions, hadd, hdel] at hrec ⊢
        constructor
        · exact hrec.1
        · exact hrec.2
      | some s =>
        dsimp only at h
        obtain ⟨kvs, rfl, hpk, hnn⟩ := statsOf_ok_some c s hst
        cases hga : dictGet s "additions" (.num 0) with
        | error err => rw [hga] at h; simp at h
        | ok addJ =>
          rw [hga] at h
          dsimp only at h
          cases hna : asNum addJ with
          | error err => rw [hna] at h; simp at h
          | ok add =>
            rw [hna] at h
            dsimp only at h
            cases hgd : dictGet s "deletions" (.num 0) with
            | error err => rw [hgd] at h; simp at h
            | ok delJ =>
              rw [hgd] at h
              dsimp only at h
              cases hnd : asNum delJ with
              | error err => rw [hnd] at h; simp at h
              | ok del =>
                rw [hnd] at h
                dsimp only at h
                have hrec := ih _ _ h
                obtain ⟨skvs, rfl⟩ : ∃ skvs, s = .obj skvs := by
                  cases s with
                  | obj skvs => exact ⟨skvs, rfl⟩
                  | null => exact absurd rfl hnn
                  | bool b => simp [dictGet] at hga
                  | num n => simp [dictGet] at hga
                  | str t => simp [dictGet] at hga
                  | arr xs => simp [dictGet] at hga
                have hca : specCommitField "additions" (.obj kvs) = add := by
                  simp only [specCommitField, hpk]
                  exact statField_of_ok skvs "additions" addJ add hga hna
                have hcd : specCommitField "deletions" (.obj kvs) = del := by
                  simp only [specCommitField, hpk]
                  exact statField_of_ok skvs "deletions" delJ del hgd hnd
                simp only [specAdditions, specDeletions, List.map_cons, List.sum_cons,
                  hca, hcd] at hrec ⊢
                omega

/-- C4: whenever the per-pair LOC computation completes, the running
totals it produces are exactly the spec's sums: Additions is the sum of
`stats.additions` (default 0) over commits with a non-null `stats`, and
Deletions likewise from `stats.deletions`; commits without `stats` (or
with `stats` null) contribute nothing. -/
theorem claim4_thm (cs : List Json) (a d : Int)
    (h : locOfCommits cs 0 0 = .ok (a, d)) :
    a = specAdditions cs ∧ d = specDeletions cs := by
  have := locOfCommits_spec cs 0 0 a d h
  omega

/-- C4 (witness): a commit with stats 10/2, a commit without stats, and a
commit with null stats sum to (10, 2). -/
theorem claim4_witness :
    (10 : Int) = specAdditions
        [.obj [("stats", .obj [("additions", .num 10), ("deletions", .num 2)])],
         .obj [("sha", .str "abc")],
         .obj [("stats", .null)]]
    ∧ (2 : Int) = specDeletions
        [.obj [("stats", .obj [("additions", .num 10), ("deletions", .num 2)])],
         .obj [("sha", .str "abc")],
         .obj [("stats", .null)]] :=
  claim4_thm
    [.obj [("stats", .obj [("additions", .num 10), ("deletions", .num 2)])],
     .obj [("sha", .str "abc")],
     .obj [("stats", .null)]]
    10 2 rfl

theorem locLookup_eq_none (m : List (String × LocInfo)) (k : String)
    (hk : ∀ q ∈ m, q.1 ≠ k) : locLookup m k = none := by
  simp only [locLookup, Option.map_eq_none', List.find?_eq_none]
  intro q hq
  simp only [beq_iff_eq]
  exact hk q (List.mem_reverse.mp hq)

theorem taskLookup_eq_default (m : List (String × String)) (k : String)
    (hk : ∀ q ∈ m, q.1 ≠ k) : taskLookup m k = "N/A" := by
  simp only [taskLookup]
  have : m.reverse.find? (fun q => q.1 == k) = none := by
    simp only [List.find?_eq_none]
    intro q hq
    simp only [beq_iff_eq]
    exact hk q (List.mem_reverse.mp hq)
  simp [this]

/-! ### Claim C7 -/

/-- C7: in every merged record, a PR_ID with no entry in the LOC mapping
yields the zero triple, and a PR_ID with no entry in the task-type map
yields the sentinel `"N/A"`. -/
theorem claim7_thm (agent_name : String) (inp : AgentInput) (out : List InteractionRecord)
    (locMap : List (String × LocInfo))
    (hagg : aggregateLoc inp.commitDetails = .ok locMap)
    (h : process_agent_data agent_name inp = .ok out) :
    ∀ r ∈ out,
      ((∀ q ∈ locMap, q.1 ≠ r.PR_ID) →
        r.Total_LOC_Change = 0 ∧ r.Additions = 0 ∧ r.Deletions = 0)
      ∧ ((∀ q ∈ buildTaskMap inp.taskFile, q.1 ≠ r.PR_ID) → r.Task_Type = "N/A") := by
  simp only [process_agent_data, Bind.bind, Except.bind] at h
  rw [hagg] at h
  dsimp only at h
  cases h
  intro r hr
  rw [List.mem_map] at hr
  obtain ⟨f, hfmem, rfl⟩ := hr
  simp only [mergeFragment]
  constructor
  · intro hnone
    rw [locLookup_eq_none locMap _ hnone]
    exact ⟨rfl, rfl, rfl⟩
  · intro hnone
    exact taskLookup_eq_default _ _ hnone

/-- C7 (witness): with no commit-details file and no task CSV, the single
merged record carries the zero LOC triple and Task_Type `"N/A"`. -/
theorem claim7_witness :
    ((InteractionRecord.mk "a" "1" "N/A" 0 0 0 "PR_Comment"
        (.str "") (.str "N/A") (.str "N/A")).Total_LOC_Change = 0
      ∧ (InteractionRecord.mk "a" "1" "N/A" 0 0 0 "PR_Comment"
        (.str "") (.str "N/A") (.str "N/A")).Additions = 0
      ∧ (InteractionRecord.mk "a" "1" "N/A" 0 0 0 "PR_Comment"
        (.str "") (.str "N/A") (.str "N/A")).Deletions = 0)
    ∧ (InteractionRecord.mk "a" "1" "N/A" 0 0 0 "PR_Comment"
        (.str "") (.str "N/A") (.str "N/A")).Task_Type = "N/A" :=
  have T := claim7_thm "a"
    ⟨none, none, some ⟨[("1.json", .arr [.obj []])], none⟩, none, none⟩
    [⟨"a", "1", "N/A", 0, 0, 0, "PR_Comment", .str "", .str "N/A", .str "N/A"⟩]
    [] rfl rfl
    ⟨"a", "1", "N/A", 0, 0, 0, "PR_Comment", .str "", .str "N/A", .str "N/A"⟩
    (List.Mem.head _)
  ⟨T.1 (by simp), T.2 (by simp [buildTaskMap])⟩

/-! ### Claim C8 -/

/-- C8: every missing per-agent input degrades to empty without error — a
missing comments file yields zero fragments, a missing commit-details file
an empty LOC mapping, a missing or unloadable task CSV an empty lookup —
and agent processing still completes normally. -/
theorem claim8_thm :
    (∀ cat : String, extract_comments_with_details none cat = [])
    ∧ aggregateLoc none = .ok []
    ∧ buildTaskMap none = []
    ∧ (∀ e : String, buildTaskMap (some (.error e)) = [])
    ∧ (∀ (n : String) (tf : TaskFile) (c1 c2 c3 : Option KVStream),
        ∃ out, process_agent_data n ⟨tf, none, c1, c2, c3⟩ = .ok out) :=
  ⟨fun _ => rfl, rfl, rfl, fun _ => rfl, fun _ _ _ _ _ => ⟨_, rfl⟩⟩

/-! ### Lemmas for the overwrite behaviour of `pr_loc_data` -/

theorem runLocPairs_append (xs ys : List (String × Json)) (acc : List (String × LocInfo)) :
    runLocPairs (xs ++ ys) acc =
      match runLocPairs xs acc with
      | .ok m => runLocPairs ys m
      | .error e => .error e := by
  induction xs generalizing acc with
  | nil => simp [runLocPairs]
  | cons p rest ih =>
    obtain ⟨fn, commits⟩ := p
    simp only [List.cons_append, runLocPairs, Bind.bind, Except.bind]
    cases pyIter commits with
    | error err => rfl
    | ok cs =>
      dsimp only
      cases locOfCommits cs 0 0 with
      | error err => rfl
      | ok ad =>
        obtain ⟨a, d⟩ := ad
        dsimp only
        exact ih _

theorem runLocPairs_acc (ps : List (String × Json)) (acc : List (String × LocInfo)) :
    runLocPairs ps acc =
      match runLocPairs ps [] with
      | .ok m => .ok (acc ++ m)
      | .error e => .error e := by
  induction ps generalizing acc with
  | nil => simp [runLocPairs]
  | cons p rest ih =>
    obtain ⟨fn, commits⟩ := p
    simp only [runLocPairs, Bind.bind, Except.bind]
    cases pyIter commits with
    | error err => rfl
    | ok cs =>
      dsimp only
      cases locOfCommits cs 0 0 with
      | error err => rfl
      | ok ad =>
        obtain ⟨a, d⟩ := ad
        dsimp only
        have ha := ih (acc ++ [(prIdOfFilename fn, ⟨a + d, a, d⟩)])
        have hb := ih ([] ++ [(prIdOfFilename fn, ⟨a + d, a, d⟩)])
        rw [ha, hb]
        cases runLocPairs rest [] <;> simp

theorem runLocPairs_keys (ps : List (String × Json)) (m : List (String × LocInfo))
    (h : runLocPairs ps [] = .ok m) :
    ∀ q ∈ m, ∃ p ∈ ps, q.1 = prIdOfFilename p.1 := by
  induction ps generalizing m with
  | nil =>
    simp only [runLocPairs] at h
    cases h
    simp
  | cons p rest ih =>
    obtain ⟨fn, commits⟩ := p
    simp only [runLocPairs, Bind.bind, Except.bind] at h
    cases hit : pyIter commits with
    | error err => rw [hit] at h; simp at h
    | ok cs =>
      rw [hit] at h
      dsimp only at h
      cases hlc : locOfCommits cs 0 0 with
      | error e => rw [hlc] at h; simp at h
      | ok ad =>
        rw [hlc] at h
        dsimp only at h
        obtain ⟨a, d⟩ := ad
        rw [runLocPairs_acc] at h
        cases hrest : runLocPairs rest [] with
        | error e => rw [hrest] at h; simp at h
        | ok m2 =>
          rw [hrest] at h
          dsimp only at h
          cases h
          intro q hq
          rcases List.mem_append.mp hq with h1 | h2
          · simp only [List.nil_append, List.mem_singleton] at h1
            exact ⟨(fn, commits), List.mem_cons_self _ _, by rw [h1]⟩
          · obtain ⟨p, hp, he⟩ := ih m2 hrest q h2
            exact ⟨p, List.mem_cons_of_mem _ hp, he⟩

/-! ### Claim C10 -/

/-- C10: when a later top-level key of the commit-details document
normalizes to the same PR_ID as earlier keys, the mapping records exactly
the later key's sums — `pr_loc_data[pr_id] = ...` overwrites, and sums are
never accumulated across top-level keys. -/
theorem claim10_thm (ps1 ps2 : List (String × Json)) (k : String) (commits : Json)
    (m : List (String × LocInfo)) (cs : List Json) (a d : Int)
    (hlater : ∀ p ∈ ps2, prIdOfFilename p.1 ≠ prIdOfFilename k)
    (hrun : runLocPairs (ps1 ++ (k, commits) :: ps2) [] = .ok m)
    (hit : pyIter commits = .ok cs)
    (hloc : locOfCommits cs 0 0 = .ok (a, d)) :
    locLookup m (prIdOfFilename k) = some ⟨a + d, a, d⟩ := by
  rw [runLocPairs_append] at hrun
  cases h1 : runLocPairs ps1 [] with
  | error e => rw [h1] at hrun; simp at hrun
  | ok m1 =>
    rw [h1] at hrun
    dsimp only at hrun
    simp only [runLocPairs, Bind.bind, Except.bind, hit] at hrun
    rw [hloc] at hrun
    dsimp only at hrun
    rw [runLocPairs_acc] at hrun
    cases h2 : runLocPairs ps2 [] with
    | error e => rw [h2] at hrun; simp at hrun
    | ok m2 =>
      rw [h2] at hrun
      dsimp only at hrun
      cases hrun
      have hm2 : ∀ q ∈ m2.reverse, ¬ (q.1 == prIdOfFilename k) = true := by
        intro q hq
        simp only [beq_iff_eq]
        obtain ⟨p, hp, he⟩ := runLocPairs_keys ps2 m2 h2 q (List.mem_reverse.mp hq)
        rw [he]
        exact hlater p hp
      simp only [locLookup, List.reverse_append, List.find?_append]
      rw [List.find?_eq_none.mpr hm2]
      simp only [Option.none_or]
      simp

/-- C10 (witness): keys `"42.json"` and `"42"` both normalize to `"42"`;
the stored triple is the later key's `⟨12, 10, 2⟩`, not an accumulation
with the earlier key's `⟨2, 1, 1⟩`. -/
theorem claim10_witness :
    locLookup [("42", ⟨2, 1, 1⟩), ("42", ⟨12, 10, 2⟩)] (prIdOfFilename "42")
      = some ⟨12, 10, 2⟩ :=
  claim10_thm
    [("42.json", .arr [.obj [("stats", .obj [("additions", .num 1), ("deletions", .num 1)])]])]
    [] "42"
    (.arr [.obj [("stats", .obj [("additions", .num 10), ("deletions", .num 2)])]])
    [("42", ⟨2, 1, 1⟩), ("42", ⟨12, 10, 2⟩)]
    [.obj [("stats", .obj [("additions", .num 10), ("deletions", .num 2)])]]
    10 2 (by simp) rfl rfl rfl

theorem foldlM_agents_nil (agents : List (String × AgentInput))
    (acc : List InteractionRecord)
    (h : ∀ ad ∈ agents, process_agent_data ad.1 ad.2 = .ok []) :
    agents.foldlM
      (fun acc ad => do
        let d ← process_agent_data ad.1 ad.2
        pure (acc ++ d))
      acc = .ok acc := by
  induction agents generalizing acc with
  | nil => rfl
  | cons ad rest ih =>
    simp only [List.foldlM, Bind.bind, Except.bind]
    rw [h ad (List.mem_cons_self _ _)]
    dsimp only
    have := ih (acc ++ []) (fun q hq => h q (List.mem_cons_of_mem _ hq))
    simpa using this

/-! ### Claim C9 -/

/-- C9: an absent base directory, an empty list of agent subdirectories,
or zero records produced across all (successfully processed) agents each
end the run with no output file written, an explicit status message, and a
normal (non-error) termination. -/
theorem claim9_thm :
    main none = .ok ⟨none, [msgBaseMissing]⟩
    ∧ main (some []) = .ok ⟨none, [msgNoAgents]⟩
    ∧ (∀ agents : List (String × AgentInput),
        agents ≠ [] →
        (∀ ad ∈ agents, process_agent_data ad.1 ad.2 = .ok []) →
        main (some agents) = .ok ⟨none, [msgNoData]⟩) := by
  refine ⟨rfl, rfl, ?_⟩
  intro agents hne hall
  cases agents with
  | nil => exact absurd rfl hne
  | cons ad rest =>
    simp only [main, List.isEmpty_cons]
    rw [foldlM_agents_nil (ad :: rest) [] hall]
    rfl

/-- C9 (witness): one agent directory with no input files at all produces
zero records; the run writes nothing and reports the no-data message. -/
theorem claim9_witness :
    main (some [("a", ⟨none, none, none, none, none⟩)]) = .ok ⟨none, [msgNoData]⟩ :=
  claim9_thm.2.2 [("a", ⟨none, none, none, none, none⟩)] (by simp)
    (fun ad had => by rw [List.mem_singleton.mp had]; rfl)

/-! ### Claim C5 -/

/-- C5: for category `Review_Summary`, an empty body together with a
non-empty `state` yields the synthesized `"Review State: "` body; in every
other string-valued case (non-empty body, or empty body with a falsy
state) the body is kept as-is — a non-empty body always wins. -/
theorem claim5_thm (pr_id : String) (kvs : List (String × Json)) (b : String) (stJ : Json)
    (f : Fragment)
    (hb : (pyLookup kvs "body").getD (.str "") = .str b)
    (hst : (pyLookup kvs "state").getD .null = stJ)
    (hok : processEntry "Review_Summary" pr_id (.obj kvs) = .ok f) :
    (∀ st : String, b = "" → stJ = .str st → st ≠ "" →
        f.Comment_Body = .str ("Review State: " ++ st))
    ∧ (b ≠ "" → f.Comment_Body = .str b)
    ∧ (b = "" → stJ.truthy = false → f.Comment_Body = .str b) := by
  have hcb := (processEntry_ok_fields _ _ _ _ hok).2.2
  simp only [computeBody, dictGet, hb, hst, Bind.bind, Except.bind,
    eq_self_iff_true, if_true] at hcb
  refine ⟨?_, ?_, ?_⟩
  · intro st hbe hstj hne
    subst hbe
    subst hstj
    simp only [Json.truthy] at hcb
    simp only [bne_self_eq_false, Bool.not_false, Bool.true_and] at hcb
    rw [show (st != "") = true by simpa using hne] at hcb
    simp only [if_true, dictIndex] at hcb
    cases hpl : pyLookup kvs "state" with
    | none =>
      rw [hpl] at hst
      simp at hst
    | some v =>
      rw [hpl] at hst hcb
      simp only [Option.getD_some] at hst
      subst hst
      simp only [Json.pyStr] at hcb
      exact (by injection hcb with h; exact h.symm)
  · intro hne
    rw [show (!(Json.str b).truthy && stJ.truthy) = false by
      simp [Json.truthy, bne, hne]] at hcb
    simp only [Bool.false_eq_true, if_false] at hcb
    injection hcb with h
    exact h.symm
  · intro hbe htr
    subst hbe
    rw [show (!(Json.str "").truthy && stJ.truthy) = false by
      simp only [show (Json.str "").truthy = false from rfl, Bool.not_false,
        Bool.true_and]
      exact htr] at hcb
    simp only [Bool.false_eq_true, if_false] at hcb
    injection hcb with h
    exact h.symm

/-- C5 (witness): the spec's two examples — entry `(state: APPROVED)` with
no body synthesizes `"Review State: APPROVED"`, and entry
`(body: nice, state: APPROVED)` keeps `"nice"`. -/
theorem claim5_witness :
    (Fragment.mk "7" (.str "Review State: APPROVED") (.str "N/A") (.str "N/A")
        "Review_Summary").Comment_Body = .str ("Review State: " ++ "APPROVED")
    ∧ (Fragment.mk "7" (.str "nice") (.str "N/A") (.str "N/A")
        "Review_Summary").Comment_Body = .str "nice" :=
  ⟨(claim5_thm "7" [("state", .str "APPROVED")] "" (.str "APPROVED")
      ⟨"7", .str "Review State: APPROVED", .str "N/A", .str "N/A", "Review_Summary"⟩
      rfl rfl rfl).1 "APPROVED" rfl rfl (by decide),
   (claim5_thm "7" [("body", .str "nice"), ("state", .str "APPROVED")] "nice"
      (.str "APPROVED")
      ⟨"7", .str "nice", .str "N/A", .str "N/A", "Review_Summary"⟩
      rfl rfl rfl).2.1 (by decide)⟩

/-! ### Lemmas for clean (exception-free) extraction runs -/

theorem mapM_processEntry_mem (cat pr : String) (es : List Json) (l : List Fragment)
    (h : es.mapM (processEntry cat pr) = .ok l) :
    ∀ f ∈ l, f.PR_ID = pr ∧ f.Comment_Category = cat := by
  induction es generalizing l with
  | nil =>
    simp only [List.mapM_nil, pure, Except.pure] at h
    cases h
    simp
  | cons e rest ih =>
    simp only [List.mapM_cons, Bind.bind, Except.bind, pure, Except.pure] at h
    cases hpe : processEntry cat pr e with
    | error err => rw [hpe] at h; simp at h
    | ok b =>
      rw [hpe] at h
      dsimp only at h
      cases hrest : rest.mapM (processEntry cat pr) with
      | error err => rw [hrest] at h; simp at h
      | ok bs =>
        rw [hrest] at h
        dsimp only at h
        cases h
        intro f hf
        rcases List.mem_cons.mp hf with rfl | hf
        · have hfe := processEntry_ok_fields cat pr e f hpe
          exact ⟨hfe.1, hfe.2.1⟩
        · exact ih bs hrest f hf

theorem runEntries_clean (cat pr : String) (es : List Json) (l : List Fragment)
    (h : es.mapM (processEntry cat pr) = .ok l) :
    runEntries cat pr es [] = (l, none) := by
  induction es generalizing l with
  | nil =>
    simp only [List.mapM_nil, pure, Except.pure] at h
    cases h
    rfl
  | cons e rest ih =>
    simp only [List.mapM_cons, Bind.bind, Except.bind, pure, Except.pure] at h
    cases hpe : processEntry cat pr e with
    | error err => rw [hpe] at h; simp at h
    | ok b =>
      rw [hpe] at h
      dsimp only at h
      cases hrest : rest.mapM (processEntry cat pr) with
      | error err => rw [hrest] at h; simp at h
      | ok bs =>
        rw [hrest] at h
        dsimp only at h
        cases h
        simp only [runEntries, hpe]
        rw [runEntries_acc, ih bs hrest]
        simp

theorem runPairs_clean (cat : String) (ps : List (String × Json)) (ls : List (List Fragment))
    (h : ps.mapM (pairFrags cat) = .ok ls) :
    runPairs cat ps [] = (ls.flatten, none) := by
  induction ps generalizing ls with
  | nil =>
    simp only [List.mapM_nil, pure, Except.pure] at h
    cases h
    rfl
  | cons p rest ih =>
    simp only [List.mapM_cons, Bind.bind, Except.bind, pure, Except.pure] at h
    cases hpf : pairFrags cat p with
    | error err => rw [hpf] at h; simp at h
    | ok l1 =>
      rw [hpf] at h
      dsimp only at h
      cases hrest : rest.mapM (pairFrags cat) with
      | error err => rw [hrest] at h; simp at h
      | ok ls2 =>
        rw [hrest] at h
        dsimp only at h
        cases h
        obtain ⟨fn, v⟩ := p
        simp only [pairFrags, Bind.bind, Except.bind] at hpf
        cases hit : pyIter v with
        | error err => rw [hit] at hpf; simp at hpf
        | ok es =>
          rw [hit] at hpf
          dsimp only at hpf
          simp only [runPairs, hit]
          rw [runEntries_clean cat (prIdOfFilename fn) es l1 hpf]
          dsimp only
          rw [runPairs_acc, ih ls2 hrest]
          simp

theorem mapM_pairFrags_mem (cat : String) (ps : List (String × Json))
    (ls : List (List Fragment)) (h : ps.mapM (pairFrags cat) = .ok ls) :
    ∀ f ∈ ls.flatten, f.Comment_Category = cat := by
  induction ps generalizing ls with
  | nil =>
    simp only [List.mapM_nil, pure, Except.pure] at h
    cases h
    simp
  | cons p rest ih =>
    simp only [List.mapM_cons, Bind.bind, Except.bind, pure, Except.pure] at h
    cases hpf : pairFrags cat p with
    | error err => rw [hpf] at h; simp at h
    | ok l1 =>
      rw [hpf] at h
      dsimp only at h
      cases hrest : rest.mapM (pairFrags cat) with
      | error err => rw [hrest] at h; simp at h
      | ok ls2 =>
        rw [hrest] at h
        dsimp only at h
        cases h
        intro f hf
        simp only [List.flatten_cons, List.mem_append] at hf
        rcases hf with hf | hf
        · simp only [pairFrags, Bind.bind, Except.bind] at hpf
          cases hit : pyIter p.2 with
          | error err => rw [hit] at hpf; simp at hpf
          | ok es =>
            rw [hit] at hpf
            dsimp only at hpf
            exact (mapM_processEntry_mem _ _ es l1 hpf f hf).2
        · exact ih ls2 hrest f hf

/-! ### Claim C6 -/

/-- C6: in one agent's output all `PR_Comment` records precede all
`Review_Comment` records, which precede all `Review_Summary` records, and
within each category the records are the per-pair fragments in document
order of the keys and array order of the entries (the `flatten` of the
per-pair fragment lists), merged in order. -/
theorem claim6_thm (agent_name : String) (inp : AgentInput) (out : List InteractionRecord)
    (ps1 ps2 ps3 : List (String × Json)) (f1 f2 f3 : Option String)
    (ls1 ls2 ls3 : List (List Fragment)) (locMap : List (String × LocInfo))
    (hc1 : inp.prComments = some ⟨ps1, f1⟩)
    (hc2 : inp.prReviewComments = some ⟨ps2, f2⟩)
    (hc3 : inp.prReviews = some ⟨ps3, f3⟩)
    (hm1 : ps1.mapM (pairFrags "PR_Comment") = .ok ls1)
    (hm2 : ps2.mapM (pairFrags "Review_Comment") = .ok ls2)
    (hm3 : ps3.mapM (pairFrags "Review_Summary") = .ok ls3)
    (hagg : aggregateLoc inp.commitDetails = .ok locMap)
    (hout : process_agent_data agent_name inp = .ok out) :
    out =
      ls1.flatten.map (mergeFragment agent_name locMap (buildTaskMap inp.taskFile))
      ++ ls2.flatten.map (mergeFragment agent_name locMap (buildTaskMap inp.taskFile))
      ++ ls3.flatten.map (mergeFragment agent_name locMap (buildTaskMap inp.taskFile))
    ∧ (∀ r ∈ ls1.flatten.map (mergeFragment agent_name locMap (buildTaskMap inp.taskFile)),
        r.Comment_Category = "PR_Comment")
    ∧ (∀ r ∈ ls2.flatten.map (mergeFragment agent_name locMap (buildTaskMap inp.taskFile)),
        r.Comment_Category = "Review_Comment")
    ∧ (∀ r ∈ ls3.flatten.map (mergeFragment agent_name locMap (buildTaskMap inp.taskFile)),
        r.Comment_Category = "Review_Summary") := by
  simp only [process_agent_data, Bind.bind, Except.bind] at hout
  rw [hagg] at hout
  dsimp only at hout
  rw [hc1, hc2, hc3, extract_eq_runPairs, extract_eq_runPairs, extract_eq_runPairs,
    runPairs_clean _ _ _ hm1, runPairs_clean _ _ _ hm2, runPairs_clean _ _ _ hm3] at hout
  dsimp only at hout
  cases hout
  refine ⟨by simp, ?_, ?_, ?_⟩
  · intro r hr
    rw [List.mem_map] at hr
    obtain ⟨f, hf, rfl⟩ := hr
    exact mapM_pairFrags_mem _ _ _ hm1 f hf
  · intro r hr
    rw [List.mem_map] at hr
    obtain ⟨f, hf, rfl⟩ := hr
    exact mapM_pairFrags_mem _ _ _ hm2 f hf
  · intro r hr
    rw [List.mem_map] at hr
    obtain ⟨f, hf, rfl⟩ := hr
    exact mapM_pairFrags_mem _ _ _ hm3 f hf

/-- C6 (witness): a one-entry file per category for agent `"a"` produces
its PR_Comment record, then the Review_Comment record, then the
Review_Summary record, each segment in input order. -/
theorem claim6_witness :
    ([⟨"a", "1", "N/A", 0, 0, 0, "PR_Comment", .str "a", .str "N/A", .str "N/A"⟩,
      ⟨"a", "1", "N/A", 0, 0, 0, "Review_Comment", .str "b", .str "N/A", .str "N/A"⟩,
      ⟨"a", "1", "N/A", 0, 0, 0, "Review_Summary", .str "Review State: APPROVED",
        .str "N/A", .str "N/A"⟩] : List InteractionRecord) =
      ([[⟨"1", .str "a", .str "N/A", .str "N/A", "PR_Comment"⟩]] : List (List Fragment)).flatten.map
          (mergeFragment "a" [] (buildTaskMap none))
      ++ ([[⟨"1", .str "b", .str "N/A", .str "N/A", "Review_Comment"⟩]] : List (List Fragment)).flatten.map
          (mergeFragment "a" [] (buildTaskMap none))
      ++ ([[⟨"1", .str "Review State: APPROVED", .str "N/A", .str "N/A",
            "Review_Summary"⟩]] : List (List Fragment)).flatten.map
          (mergeFragment "a" [] (buildTaskMap none)) :=
  (claim6_thm "a"
    ⟨none, none,
     some ⟨[("1.json", .arr [.obj [("body", .str "a")]])], none⟩,
     some ⟨[("1.json", .arr [.obj [("body", .str "b")]])], none⟩,
     some ⟨[("1.json", .arr [.obj [("state", .str "APPROVED")]])], none⟩⟩
    [⟨"a", "1", "N/A", 0, 0, 0, "PR_Comment", .str "a", .str "N/A", .str "N/A"⟩,
     ⟨"a", "1", "N/A", 0, 0, 0, "Review_Comment", .str "b", .str "N/A", .str "N/A"⟩,
     ⟨"a", "1", "N/A", 0, 0, 0, "Review_Summary", .str "Review State: APPROVED",
       .str "N/A", .str "N/A"⟩]
    [("1.json", .arr [.obj [("body", .str "a")]])]
    [("1.json", .arr [.obj [("body", .str "b")]])]
    [("1.json", .arr [.obj [("state", .str "APPROVED")]])]
    none none none
    [[⟨"1", .str "a", .str "N/A", .str "N/A", "PR_Comment"⟩]]
    [[⟨"1", .str "b", .str "N/A", .str "N/A", "Review_Comment"⟩]]
    [[⟨"1", .str "Review State: APPROVED", .str "N/A", .str "N/A", "Review_Summary"⟩]]
    [] rfl rfl rfl rfl rfl rfl rfl rfl).1

end ProcessPRData
